import Mathlib

/-!
Verification development for the whoscored scraping repository
(src/WebScraping/whoscored_scraper.py and src/fetch_data.py).

The Python code is shallowly embedded: pandas dataframes become explicit
column lists plus rows of association lists, Python values become the
inductive type `Value`, Python exceptions become `PyExc`, and every
fallible operation returns `Except PyExc`.  Browser and database side
effects are modelled as data: the rendered page content that the parser
consumes is an input, and database upserts are recorded as an explicit
trace of sink calls.
-/

namespace WhoScored

/-- Python exception classes that the scraper can raise or catch.  The
`except` clause at line 677 of whoscored_scraper.py catches exactly
KeyError, IndexError, ValueError and json.JSONDecodeError (pydantic
ValidationError subclasses ValueError).  `stringRaise` models the
`raise('Season Not Found.')` statement. -/
inductive PyExc where
  | keyError
  | indexError
  | valueError
  | jsonDecodeError
  | typeError
  | nameError
  | stringRaise
deriving DecidableEq

/-- The exception types caught by the per-match `except` clause
(whoscored_scraper.py line 677). -/
def caught : PyExc → Bool
  | .keyError => true
  | .indexError => true
  | .valueError => true
  | .jsonDecodeError => true
  | _ => false

/-- Python runtime values as they occur in the decoded match payload and
in dataframe cells.  Floats are exact rationals (no float arithmetic is
performed by the code, values are only moved and converted), `nan` is
the float NaN used by pandas as a missing marker, `pynone` is Python
None.  Nested descriptor dicts are string-to-string maps since the only
key the code ever reads from them is displayName, whose value is a
string; `vobj` stands for opaque objects (the qualifiers lists) that the
code moves around but never inspects. -/
inductive Value where
  | nan
  | pynone
  | vint (n : Int)
  | vfloat (q : Rat)
  | vstr (s : String)
  | vbool (b : Bool)
  | vdict (entries : List (String × String))
  | vobj (tag : String)
deriving DecidableEq

/-- pd.isnull: NaN and None are the missing markers. -/
def isnull : Value → Bool
  | .nan => true
  | .pynone => true
  | _ => false

/-- The subscript projection `lambda x: x['displayName']` applied to the
event period/type/outcome_type columns (whoscored_scraper.py lines
564-566).  A dict yields its displayName entry (KeyError when absent);
any non-dict value, including a plain string, raises TypeError. -/
def pyDisplayName : Value → Except PyExc Value
  | .vdict es =>
      match es.lookup "displayName" with
      | some s => .ok (.vstr s)
      | none => .error .keyError
  | .vstr _ => .error .typeError
  | _ => .error .typeError

/-- extract_period (whoscored_scraper.py lines 242-255): a dict is
projected to its displayName with np.nan as default, any other value is
returned unchanged. -/
def extract_period : Value → Value
  | .vdict es =>
      match es.lookup "displayName" with
      | some s => .vstr s
      | none => .nan
  | x => x

/-- A dataframe row: an association list from column names to cell
values. -/
abbrev Row := List (String × Value)

/-- A pandas dataframe: the column labels plus one association list per
row.  Rows built by `pdDataFrame` carry an entry for every column. -/
structure Df where
  cols : List String
  rows : List Row
deriving DecidableEq

/-- Cell access: first entry with the given key, NaN when the row has no
such entry (pandas fills missing keys with NaN at construction). -/
def cellGet (r : Row) (c : String) : Value :=
  match r.lookup c with
  | some v => v
  | none => .nan

/-- Overwrite (or append) the entry for column `c` in a row. -/
def setCell (r : Row) (c : String) (v : Value) : Row :=
  if r.lookup c = none then r ++ [(c, v)]
  else r.map (fun kv => if kv.1 = c then (c, v) else kv)

/-- Union of the keys of all event dicts, in order of first appearance:
the columns pandas assigns to `pd.DataFrame(list_of_dicts)`. -/
def unionKeys (events : List Row) : List String :=
  events.foldl (fun acc r =>
    r.foldl (fun a kv => if kv.1 ∈ a then a else a ++ [kv.1]) acc) []

/-- pd.DataFrame(list_of_dicts): columns are the key union, each row has
every column, missing keys filled with NaN. -/
def pdDataFrame (events : List Row) : Df :=
  let cols := unionKeys events
  { cols := cols
    rows := events.map (fun e => cols.map (fun c =>
      (c, match e.lookup c with
          | some v => v
          | none => Value.nan))) }

/-- df.dropna(subset=c): drop rows whose c cell is missing; KeyError when
the column does not exist (as pandas raises for an unknown subset). -/
def dropna (df : Df) (c : String) : Except PyExc Df :=
  if c ∈ df.cols then
    .ok { df with rows := df.rows.filter (fun r => !isnull (cellGet r c)) }
  else .error .keyError

/-- df.where(pd.notnull(df), None): every missing cell (NaN or None)
becomes None. -/
def whereNotNull (df : Df) : Df :=
  { df with rows := df.rows.map (fun r => r.map (fun kv =>
      (kv.1, if isnull kv.2 then Value.pynone else kv.2))) }

/-- df.drop(c, axis=1): KeyError when the column is absent. -/
def dropCol (df : Df) (c : String) : Except PyExc Df :=
  if c ∈ df.cols then
    .ok { cols := df.cols.erase c
          rows := df.rows.map (fun r => r.filter (fun kv => kv.1 ≠ c)) }
  else .error .keyError

/-- df[c] = scalar: overwrite an existing column or append a new one. -/
def setCol (df : Df) (c : String) (v : Value) : Df :=
  if c ∈ df.cols then
    { df with rows := df.rows.map (fun r => setCell r c v) }
  else
    { cols := df.cols ++ [c]
      rows := df.rows.map (fun r => r ++ [(c, v)]) }

/-- df.rename(table, axis=1): labels found in the table are replaced. -/
def renameCols (df : Df) (table : List (String × String)) : Df :=
  let f := fun s => (table.lookup s).getD s
  { cols := df.cols.map f
    rows := df.rows.map (fun r => r.map (fun kv => (f kv.1, kv.2))) }

/-- Map rows through a fallible per-row function, stopping at the first
raised exception. -/
def mapRowsE (f : Row → Except PyExc Row) : List Row → Except PyExc (List Row)
  | [] => .ok []
  | r :: rs => do
      let r' ← f r
      let rs' ← mapRowsE f rs
      .ok (r' :: rs')

/-- df[c] = df[c].apply(f): KeyError when the column is absent, otherwise
each cell of the column is replaced by f of it (f may raise). -/
def applyCol (df : Df) (c : String) (f : Value → Except PyExc Value) :
    Except PyExc Df :=
  if c ∈ df.cols then do
    let rows' ← mapRowsE (fun r => do
      let v' ← f (cellGet r c)
      .ok (setCell r c v')) df.rows
    .ok { df with rows := rows' }
  else .error .keyError

/-- df[~(df[c] == v)]: keep the rows whose c cell differs from v. -/
def filterColNe (df : Df) (c : String) (v : Value) : Except PyExc Df :=
  if c ∈ df.cols then
    .ok { df with rows := df.rows.filter (fun r => cellGet r c ≠ v) }
  else .error .keyError

/-- df[[c1, ..., ck]]: column projection in the given order; KeyError
when one of the requested columns is absent. -/
def selectCols (df : Df) (cs : List String) : Except PyExc Df :=
  if cs.all (fun c => c ∈ df.cols) then
    .ok { cols := cs
          rows := df.rows.map (fun r => cs.map (fun c => (c, cellGet r c))) }
  else .error .keyError

/-- Apply a fallible cell conversion to each listed column in turn:
df[cs] = df[cs].astype(t). -/
def astypeCols (conv : Value → Except PyExc Value) :
    Df → List String → Except PyExc Df
  | df, [] => .ok df
  | df, c :: cs => do
      let df' ← applyCol df c conv
      astypeCols conv df' cs

/-- The digit value of a decimal string, none when empty or not all
digits. -/
def digitsToNat (cs : List Char) : Option Nat :=
  if cs.isEmpty then none
  else if cs.all Char.isDigit then
    some (cs.foldl (fun n c => 10 * n + (c.toNat - 48)) 0)
  else none

/-- int(s) on a decimal string: optional surrounding spaces and sign,
ValueError (none) otherwise. -/
def pyIntParse (s : String) : Option Int :=
  let t := ((s.data.dropWhile (fun c => c = ' ')).reverse.dropWhile
    (fun c => c = ' ')).reverse
  match t with
  | '-' :: rest => (digitsToNat rest).map (fun n => -(n : Int))
  | '+' :: rest => (digitsToNat rest).map (fun n => (n : Int))
  | rest => (digitsToNat rest).map (fun n => (n : Int))

/-- str.split(sep) for a one-character separator, keeping empty pieces
as Python does. -/
def pySplitAux (sep : Char) : List Char → List Char → List String
  | [], acc => [String.mk acc.reverse]
  | c :: cs, acc =>
      if c = sep then String.mk acc.reverse :: pySplitAux sep cs []
      else pySplitAux sep cs (c :: acc)

/-- str.split(sep) over a whole string. -/
def pySplit (sep : Char) (s : String) : List String :=
  pySplitAux sep s.data []

/-- int(x) as pandas astype(int) applies it per cell: ints stay, floats
truncate toward zero, bools become 0/1, numeric strings parse, NaN is a
ValueError (cannot convert float NaN to integer), None a TypeError. -/
def pyIntConv : Value → Except PyExc Value
  | .vint n => .ok (.vint n)
  | .vfloat q => .ok (.vint (Int.tdiv q.num q.den))
  | .vbool b => .ok (.vint (if b then 1 else 0))
  | .vstr s =>
      match pyIntParse s with
      | some n => .ok (.vint n)
      | none => .error .valueError
  | .nan => .error .valueError
  | .pynone => .error .typeError
  | _ => .error .typeError

/-- Parse a decimal literal to an exact rational, as float(str) accepts
integer and fractional decimal strings. -/
def pyFloatOfString (s : String) : Option Rat :=
  match pySplit '.' s with
  | [a] => (pyIntParse a).map (fun n => (n : Rat))
  | [a, b] =>
      match pyIntParse a, digitsToNat b.data with
      | some n, some f =>
          let frac : Rat := (f : Rat) / ((10 : Rat) ^ b.length)
          some (if a.startsWith "-" then (n : Rat) - frac else (n : Rat) + frac)
      | _, _ => none
  | _ => none

/-- float(x) as pandas astype(float) applies it per cell: None becomes
NaN (pandas promotes missing to NaN in float columns), NaN stays. -/
def pyFloatConv : Value → Except PyExc Value
  | .vint n => .ok (.vfloat n)
  | .vfloat q => .ok (.vfloat q)
  | .vbool b => .ok (.vfloat (if b then 1 else 0))
  | .nan => .ok .nan
  | .pynone => .ok .nan
  | .vstr s =>
      match pyFloatOfString s with
      | some q => .ok (.vfloat q)
      | none => .error .valueError
  | _ => .error .typeError

/-- bool(x) as pandas astype(bool) applies it per cell; note that
bool(float nan) is True and bool(None) is False. -/
def pyBoolConv : Value → Except PyExc Value
  | .vbool b => .ok (.vbool b)
  | .vint n => .ok (.vbool (n ≠ 0))
  | .vfloat q => .ok (.vbool (q ≠ 0))
  | .nan => .ok (.vbool true)
  | .pynone => .ok (.vbool false)
  | .vstr s => .ok (.vbool (s ≠ ""))
  | .vdict es => .ok (.vbool (es ≠ []))
  | .vobj _ => .ok (.vbool true)

/-- Pure per-cell rewrite applied to a set of columns of every row. -/
def mapColsCell (cs : List String) (t : Value → Value) (df : Df) : Df :=
  { df with rows := df.rows.map (fun r =>
      cs.foldl (fun r' c => setCell r' c (t (cellGet r' c))) r) }

/-- Series.fillna(False): missing cells (NaN or None) of one column
become False. -/
def fillnaFalseCol (df : Df) (c : String) : Df :=
  mapColsCell [c] (fun v => if isnull v then .vbool false else v) df

/-- A column has float64 dtype at the end of the pipeline exactly when
every cell is a float or float NaN. -/
def isFloatCell : Value → Bool
  | .vfloat _ => true
  | .nan => true
  | _ => false

/-- The np.where(np.isnan(col), None, col) loop over float-dtype columns
(whoscored_scraper.py lines 590-596 and 666-672): NaN cells of float
columns become None. -/
def floatNanToNone (df : Df) : Df :=
  mapColsCell
    (df.cols.filter (fun c => df.rows.all (fun r => isFloatCell (cellGet r c))))
    (fun v => if v = .nan then .pynone else v) df

/-- The rename table of whoscored_scraper.py lines 543-562.  Note that
it has no entry for isGoal. -/
def renameTable : List (String × String) :=
  [("id", "event_id"), ("expandedMinute", "expanded_minute"),
   ("outcomeType", "outcome_type"), ("isTouch", "is_touch"),
   ("playerId", "player_id"), ("teamId", "team_id"),
   ("endX", "end_x"), ("endY", "end_y"),
   ("blockedX", "blocked_x"), ("blockedY", "blocked_y"),
   ("goalMouthZ", "goal_mouth_z"), ("goalMouthY", "goal_mouth_y"),
   ("isShot", "is_shot"), ("cardType", "card_type"),
   ("relatedPlayerId", "related_player_id")]

/-- The column projection of whoscored_scraper.py lines 577-581. -/
def selectedCols : List String :=
  ["event_id", "match_id", "minute", "second", "expanded_minute",
   "team_id", "player_id", "related_player_id", "x", "y", "end_x",
   "end_y", "qualifiers", "is_touch", "blocked_x", "blocked_y",
   "goal_mouth_z", "goal_mouth_y", "is_shot", "card_type", "is_goal",
   "type", "outcome_type", "period"]

/-- The columns coerced with astype(int) at line 583. -/
def intCols : List String :=
  ["event_id", "match_id", "minute", "team_id", "player_id",
   "expanded_minute"]

/-- The columns coerced with astype(float) at line 584. -/
def floatColsList : List String :=
  ["second", "x", "y", "end_x", "end_y", "related_player_id"]

/-- The columns coerced with astype(bool) at line 585. -/
def boolCols : List String := ["is_shot", "is_goal", "card_type"]

/-- The event normalization of whoscored_scraper.py lines 533-596: the
dataframe pipeline from the raw event dicts of the payload to the rows
handed to insert_events. -/
def eventsPipeline (match_events : List Row) (match_id : Int) :
    Except PyExc Df := do
  let df := pdDataFrame match_events
  let df ← dropna df "playerId"
  let df := whereNotNull df
  let df ← dropCol df "eventId"
  let df := setCol df "match_id" (.vint match_id)
  let df := renameCols df renameTable
  let df ← applyCol df "period" pyDisplayName
  let df ← applyCol df "type" pyDisplayName
  let df ← applyCol df "outcome_type" pyDisplayName
  let df := if "is_goal" ∈ df.cols then df
            else setCol df "is_goal" (.vbool false)
  let df := if "is_card" ∈ df.cols then df
            else setCol (setCol df "is_card" (.vbool false)) "card_type" (.vbool false)
  let df ← filterColNe df "type" (.vstr "OffsideGiven")
  let df ← selectCols df selectedCols
  let df ← astypeCols pyIntConv df intCols
  let df ← astypeCols pyFloatConv df floatColsList
  let df ← astypeCols pyBoolConv df boolCols
  let df := fillnaFalseCol df "is_goal"
  let df := fillnaFalseCol df "is_shot"
  let df := floatNanToNone df
  .ok df

/-! ## URL helpers -/

/-- int(whoscored_url.split("/")[-3]) at line 514: this runs before the
try block, so its exceptions are never caught by the per-match handler. -/
def pyUrlMatchId (whoscored_url : String) : Except PyExc Int :=
  let segs := pySplit '/' whoscored_url
  if segs.length < 3 then .error .indexError
  else
    match pyIntParse (segs.getD (segs.length - 3) "") with
    | some n => .ok n
    | none => .error .valueError

/-- Modelled from the spec sentence of the round-trip property: the
integer parsed from the third-from-last path segment of the source URL
(the segments being the slash-separated pieces). -/
def specMatchId (whoscored_url : String) : Option Int :=
  pyIntParse ((pySplit '/' whoscored_url).reverse.getD 2 "")

/-! ### The regular expression of extract_info_from_url

Pattern r'/([^/]+)-([^/]+)-(\d{4}-\d{4})-' with Python re.search
semantics: the match is the leftmost one, and within it the greedy
groups backtrack from longest to shortest. -/

/-- Check that a character list starts with four digits, a dash, four
more digits and a dash; returns the consumed nine characters. -/
def seasonChunk (l : List Char) : Option String :=
  match l with
  | d1 :: d2 :: d3 :: d4 :: '-' :: e1 :: e2 :: e3 :: e4 :: '-' :: _ =>
      if [d1, d2, d3, d4, e1, e2, e3, e4].all Char.isDigit then
        some (String.mk [d1, d2, d3, d4, '-', e1, e2, e3, e4])
      else none
  | _ => none

/-- Candidate splits of the leading slash-free run of `l` into a
nonempty group prefix followed by a literal dash, longest prefix first:
the backtracking order of a greedy `([^/]+)-`. -/
def groupSplits (l : List Char) : List (List Char × List Char) :=
  let run := l.takeWhile (fun c => c ≠ '/')
  (List.range run.length).reverse.filterMap (fun k =>
    match l.drop (k + 1) with
    | '-' :: rest => some (l.take (k + 1), rest)
    | _ => none)

/-- Try to match the groups of the pattern right after a slash. -/
def matchGroupsAt (l : List Char) : Option (String × String × String) :=
  (groupSplits l).findSome? (fun g1 =>
    (groupSplits g1.2).findSome? (fun g2 =>
      (seasonChunk g2.2).map (fun season =>
        (String.mk g1.1, String.mk g2.1, season))))

/-- re.search for the pattern: scan left to right for a slash at which
the groups match. -/
def searchPattern : List Char → Option (String × String × String)
  | [] => none
  | c :: rest =>
      match (if c = '/' then matchGroupsAt rest else none) with
      | some res => some res
      | none => searchPattern rest

/-- extract_info_from_url (whoscored_scraper.py lines 258-282): returns
(region, competition, season) when the pattern matches, otherwise the
None triple. -/
def extract_info_from_url (whoscored_url : String) :
    Option (String × String × String) :=
  searchPattern whoscored_url.data

/-! ## The decoded match payload

Typed views of the matchCentreData dict.  Every field the code reads
with a direct subscript is an Option here; `keyGet` turns an absent key
into the KeyError the subscript would raise, while `player.get(k, None)`
accesses map absence to None directly. -/

/-- Dict subscript: KeyError when the key is absent. -/
def keyGet {α : Type} : Option α → Except PyExc α
  | some a => .ok a
  | none => .error .keyError

/-- One roster entry of matchDict home/away players. -/
structure PlayerDict where
  playerId : Option Value
  shirtNo : Option Value
  name : Option String
  age : Option Value
  height : Option Value
  weight : Option Value
  position : Option String
  field : Option String
  isFirstEleven : Option Value
  subbedInPlayerId : Option Value
  subbedOutPeriod : Option Value
  subbedOutExpandedMinute : Option Value
  subbedInPeriod : Option Value
  subbedInExpandedMinute : Option Value
  subbedOutPlayerId : Option Value
deriving DecidableEq

/-- One team block of the payload. -/
structure TeamDict where
  teamId : Option Value
  name : Option String
  countryName : Option String
  managerName : Option String
  players : Option (List PlayerDict)
deriving DecidableEq

/-- The decoded matchCentreData payload. -/
structure MatchDict where
  events : Option (List Row)
  home : Option TeamDict
  away : Option TeamDict
  startDate : Option String
  score : Option String
  maxMinute : Option Value
  expandedMaxMinute : Option Value
deriving DecidableEq

/-- The team_info entries built at lines 600-615. -/
structure TeamInfo where
  team_id : Value
  name : String
  country_name : String
  manager_name : String
  players : List PlayerDict
deriving DecidableEq

/-- Lines 600-615: build the home and away team_info dicts; every field
is a direct subscript of the payload. -/
def buildTeamInfo (md : MatchDict) : Except PyExc (List TeamInfo) := do
  let home ← keyGet md.home
  let away ← keyGet md.away
  let hTeamId ← keyGet home.teamId
  let hName ← keyGet home.name
  let hCountry ← keyGet home.countryName
  let hManager ← keyGet home.managerName
  let hPlayers ← keyGet home.players
  let aTeamId ← keyGet away.teamId
  let aName ← keyGet away.name
  let aCountry ← keyGet away.countryName
  let aManager ← keyGet away.managerName
  let aPlayers ← keyGet away.players
  .ok [⟨hTeamId, hName, hCountry, hManager, hPlayers⟩,
       ⟨aTeamId, aName, aCountry, aManager, aPlayers⟩]

/-- insert_players (lines 180-200): flatten the rosters into one row per
player; every key is a direct subscript. -/
def playersRows (team_info : List TeamInfo) : Except PyExc (List Row) := do
  let nested ← team_info.mapM (fun team =>
    team.players.mapM (fun player => do
      let pid ← keyGet player.playerId
      let shirt ← keyGet player.shirtNo
      let nm ← keyGet player.name
      let ag ← keyGet player.age
      let ht ← keyGet player.height
      let wt ← keyGet player.weight
      .ok [("player_id", pid), ("team_id", team.team_id),
           ("shirt_no", shirt), ("name", Value.vstr nm),
           ("age", ag), ("height", ht), ("weight", wt)]))
  .ok nested.flatten

/-- score.split(' : '): left-to-right scan for the three-character
separator, keeping empty pieces. -/
def scoreSplit : List Char → List Char → List String
  | ' ' :: ':' :: ' ' :: rest, acc =>
      String.mk acc.reverse :: scoreSplit rest []
  | c :: cs, acc => scoreSplit cs (c :: acc)
  | [], acc => [String.mk acc.reverse]

/-- map(int, score.split(' : ')) unpacked into two values (line 621). -/
def pyScoreParse (score : String) : Except PyExc (Int × Int) :=
  match scoreSplit score.data [] with
  | [h, a] =>
      match pyIntParse h, pyIntParse a with
      | some hs, some as_ => .ok (hs, as_)
      | _, _ => .error .valueError
  | _ => .error .valueError

/-- Python None-or-string turned into a dataframe/dict cell. -/
def optStr : Option String → Value
  | some s => .vstr s
  | none => .pynone

/-- Lines 619-636: the single match_info dict, with the match id,
region, competition and season taken from the URL, the rest from the
payload (field order as upserted by insert_matches, lines 210-225). -/
def matchInfoStep (md : MatchDict) (match_id : Int)
    (region competition season : Option String) : Except PyExc Row := do
  let home ← keyGet md.home
  let away ← keyGet md.away
  let hName ← keyGet home.name
  let aName ← keyGet away.name
  let startDate ← keyGet md.startDate
  let score ← keyGet md.score
  let scores ← pyScoreParse score
  let maxMin ← keyGet md.maxMinute
  let expMaxMin ← keyGet md.expandedMaxMinute
  .ok [("match_id", Value.vint match_id),
       ("match_date", Value.vstr (startDate.take 10)),
       ("home_score", Value.vint scores.1),
       ("away_score", Value.vint scores.2),
       ("home_team_name", Value.vstr hName),
       ("away_team_name", Value.vstr aName),
       ("match_minutes", maxMin),
       ("match_minutes_expanded", expMaxMin),
       ("region", optStr region),
       ("season", optStr season),
       ("competition", optStr competition)]

/-- player.get(key, None): absence becomes None, never an error. -/
def getOrNone : Option Value → Value
  | some v => v
  | none => .pynone

/-- Lines 640-658: one lineup dict per (match, team, player). -/
def lineupRawRows (match_info : List Row) (team_info : List TeamInfo) :
    Except PyExc (List Row) := do
  let nested ← match_info.mapM (fun mtch => do
    let perTeam ← team_info.mapM (fun team =>
      team.players.mapM (fun player => do
        let pid ← keyGet player.playerId
        let nm ← keyGet player.name
        let pos ← keyGet player.position
        let fld ← keyGet player.field
        .ok [("match_id", cellGet mtch "match_id"),
             ("team_id", team.team_id),
             ("player_id", pid),
             ("player_name", Value.vstr nm),
             ("player_position", Value.vstr pos),
             ("field", Value.vstr fld),
             ("first_eleven", getOrNone player.isFirstEleven),
             ("subbed_in_player_id", getOrNone player.subbedInPlayerId),
             ("subbed_out_period", getOrNone player.subbedOutPeriod),
             ("subbed_out_expanded_min", getOrNone player.subbedOutExpandedMinute),
             ("subbed_in_period", getOrNone player.subbedInPeriod),
             ("subbed_in_expanded_min", getOrNone player.subbedInExpandedMinute),
             ("subbed_out_player_id", getOrNone player.subbedOutPlayerId)]))
    .ok perTeam.flatten)
  .ok nested.flatten

/-- Lines 660-672: the lineup dataframe pipeline up to insert_lineups. -/
def lineupPipeline (lineups : List Row) : Except PyExc Df := do
  let df := pdDataFrame lineups
  let df := whereNotNull df
  let df := fillnaFalseCol df "first_eleven"
  let df ← astypeCols pyBoolConv df ["first_eleven"]
  let df ← applyCol df "subbed_out_period" (fun v => .ok (extract_period v))
  let df ← applyCol df "subbed_in_period" (fun v => .ok (extract_period v))
  .ok (floatNanToNone df)

/-! ## Shallow pydantic validation

insert_events and insert_lineups validate each row against the Events
and Lineups models before upserting; a validation failure is a pydantic
ValidationError, which subclasses ValueError.  The validation is
modelled as a per-field shape check. -/

/-- Required int field. -/
def vIsInt : Value → Bool
  | .vint _ => true
  | _ => false

/-- Optional float field: None, a float, or an int (coerced) validate. -/
def vIsOptFloat : Value → Bool
  | .pynone => true
  | .vfloat _ => true
  | .vint _ => true
  | _ => false

/-- Required float field. -/
def vIsFloat : Value → Bool
  | .vfloat _ => true
  | .vint _ => true
  | _ => false

/-- Required bool field. -/
def vIsBool : Value → Bool
  | .vbool _ => true
  | _ => false

/-- Required str field. -/
def vIsStr : Value → Bool
  | .vstr _ => true
  | _ => false

/-- Optional str field. -/
def vIsOptStr : Value → Bool
  | .pynone => true
  | .vstr _ => true
  | _ => false

/-- The Events pydantic model (whoscored_scraper.py lines 26-79). -/
def eventsRowOk (r : Row) : Bool :=
  vIsInt (cellGet r "event_id") && vIsInt (cellGet r "match_id") &&
  vIsInt (cellGet r "minute") && vIsOptFloat (cellGet r "second") &&
  vIsInt (cellGet r "expanded_minute") && vIsInt (cellGet r "team_id") &&
  vIsInt (cellGet r "player_id") &&
  vIsOptFloat (cellGet r "related_player_id") &&
  vIsFloat (cellGet r "x") && vIsFloat (cellGet r "y") &&
  vIsOptFloat (cellGet r "end_x") && vIsOptFloat (cellGet r "end_y") &&
  vIsBool (cellGet r "is_touch") &&
  vIsOptFloat (cellGet r "blocked_x") && vIsOptFloat (cellGet r "blocked_y") &&
  vIsOptFloat (cellGet r "goal_mouth_z") && vIsOptFloat (cellGet r "goal_mouth_y") &&
  vIsBool (cellGet r "is_shot") && vIsBool (cellGet r "card_type") &&
  vIsBool (cellGet r "is_goal") && vIsStr (cellGet r "type") &&
  vIsStr (cellGet r "outcome_type") && vIsStr (cellGet r "period")

/-- The Lineups pydantic model (whoscored_scraper.py lines 131-162). -/
def lineupRowOk (r : Row) : Bool :=
  vIsInt (cellGet r "match_id") && vIsInt (cellGet r "team_id") &&
  vIsInt (cellGet r "player_id") && vIsStr (cellGet r "player_name") &&
  vIsStr (cellGet r "player_position") && vIsStr (cellGet r "field") &&
  vIsBool (cellGet r "first_eleven") &&
  vIsOptFloat (cellGet r "subbed_in_player_id") &&
  vIsOptStr (cellGet r "subbed_out_period") &&
  vIsOptFloat (cellGet r "subbed_out_expanded_min") &&
  vIsOptStr (cellGet r "subbed_in_period") &&
  vIsOptFloat (cellGet r "subbed_in_expanded_min") &&
  vIsOptFloat (cellGet r "subbed_out_player_id")

/-! ## The per-match scrape and the orchestrator -/

/-- One upsert issued to the persistence sink, with the records it
carried. -/
inductive SinkCall where
  | evs (rows : List Row)
  | players (rows : List Row)
  | matches (rows : List Row)
  | lineups (rows : List Row)
deriving DecidableEq

/-- The table a sink call targets. -/
def sinkTable : SinkCall → String
  | .evs _ => "events"
  | .players _ => "players"
  | .matches _ => "matches"
  | .lineups _ => "lineups"

/-- The order in which scrape_whoscored_data addresses the four tables. -/
def tableOrder : List String := ["events", "players", "matches", "lineups"]

/-- The body of the try block (lines 527-676) after the payload has been
decoded: returns the upserts issued before returning or raising,
together with the raised exception if any.  Supabase transport itself is
modelled as always accepting a batch (SinkError is not handled by the
code and not claimed). -/
def scrapeBody (md : MatchDict) (match_id : Int)
    (region competition season : Option String) :
    List SinkCall × Option PyExc :=
  match keyGet md.events with
  | .error e => ([], some e)
  | .ok match_events =>
  match eventsPipeline match_events match_id with
  | .error e => ([], some e)
  | .ok df =>
  if !df.rows.all eventsRowOk then ([], some .valueError)
  else
  let c1 := SinkCall.evs df.rows
  match buildTeamInfo md with
  | .error e => ([c1], some e)
  | .ok team_info =>
  match playersRows team_info with
  | .error e => ([c1], some e)
  | .ok prs =>
  let c2 := SinkCall.players prs
  match matchInfoStep md match_id region competition season with
  | .error e => ([c1, c2], some e)
  | .ok match_row =>
  let c3 := SinkCall.matches [match_row]
  match lineupRawRows [match_row] team_info with
  | .error e => ([c1, c2, c3], some e)
  | .ok lraw =>
  match lineupPipeline lraw with
  | .error e => ([c1, c2, c3], some e)
  | .ok ldf =>
  if !ldf.rows.all lineupRowOk then ([c1, c2, c3], some .valueError)
  else ([c1, c2, c3, SinkCall.lineups ldf.rows], none)

/-- The observable outcome of one scrape_whoscored_data call. -/
inductive Outcome where
  | success
  | noData
  | handled (e : PyExc)
  | raised (e : PyExc)
deriving DecidableEq

/-- An exception inside the try block is either caught by the except
clause (logged, function returns) or propagates out of the call. -/
def classifyExc (e : PyExc) : Outcome :=
  if caught e then .handled e else .raised e

/-- The rendered page as the parser sees it: no matchCentreData script
element at all, or a script whose marker split and json.loads either
raise or produce a payload. -/
abbrev PageContent := Option (Except PyExc MatchDict)

/-- scrape_whoscored_data (lines 500-680): match id parse and URL info
extraction happen before the try block, then the payload is decoded and
the four record kinds are normalized and upserted.  Returns the sink
calls issued and the outcome. -/
def scrape_whoscored_data (whoscored_url : String) (page : PageContent) :
    List SinkCall × Outcome :=
  match pyUrlMatchId whoscored_url with
  | .error e => ([], .raised e)
  | .ok match_id =>
    let info := extract_info_from_url whoscored_url
    let region := info.map (fun t => t.1)
    let competition := info.map (fun t => t.2.1)
    let season := info.map (fun t => t.2.2)
    match page with
    | none => ([], .noData)
    | some (.error e) => ([], classifyExc e)
    | some (.ok md) =>
        let res := scrapeBody md match_id region competition season
        (res.1, match res.2 with
          | none => .success
          | some e => classifyExc e)

/-- The module-level loop over the formatted match URLs (lines 713-717):
each URL is printed, scraped, and a caught failure is logged; an
exception that escapes scrape_whoscored_data aborts the whole loop.
Returns the final sink trace, the URLs processed, the per-match error
log, and the aborting exception if any. -/
def runBatch : List (String × PageContent) → List SinkCall →
    List SinkCall × List String × List (String × PyExc) × Option PyExc
  | [], sink => (sink, [], [], none)
  | (url, page) :: rest, sink =>
      let res := scrape_whoscored_data url page
      let sink' := sink ++ res.1
      match res.2 with
      | .raised e => (sink', [url], [], some e)
      | .handled e =>
          let r := runBatch rest sink'
          (r.1, url :: r.2.1, (url, e) :: r.2.2.1, r.2.2.2)
      | _ =>
          let r := runBatch rest sink'
          (r.1, url :: r.2.1, r.2.2.1, r.2.2.2)

/-! ## Competition Navigator -/

/-- One state of the month-paginated match listing as getUrlData
observes it: the visible divtable rows (each with the href of its
result link, when the row has one), whether the previous-month control
is disabled, and that control's title attribute. -/
structure MonthPage where
  rows : List (Option String)
  prevDisabled : Bool
  prevTitle : String
deriving DecidableEq

/-- The title that marks the end of the listing history. -/
def noDataTitle : String := "No data for previous week"

/-- The while loop of getUrlData (lines 358-393) over the sequence of
pages the previous-month clicks walk through.  `cur` is the page
currently displayed, `rest` the pages further clicks would reach; a walk
that runs past the supplied pages is `none` (the loop would keep
clicking).  Each iteration reads the visible rows, collects them,
clicks, and, when the control now reports no data for the previous
week, collects the rows still visible before breaking. -/
def getUrlDataAux : MonthPage → List MonthPage → Option (List (Option String))
  | cur, rest =>
      if cur.rows = [] then
        if cur.prevDisabled then some []
        else
          match rest with
          | [] => none
          | _ :: [] => none
          | _ :: p2 :: rest'' =>
              if p2.prevTitle = noDataTitle then some p2.rows
              else getUrlDataAux p2 rest''
      else
        match rest with
        | [] => none
        | p1 :: rest' =>
            if p1.prevTitle = noDataTitle then some (cur.rows ++ p1.rows)
            else (getUrlDataAux p1 rest').map (fun t => cur.rows ++ t)

/-- getUrlData (lines 347-397): the collected rows with the final
filter(None, ...) dropping the rows that had no result link. -/
def getUrlData (cur : MonthPage) (rest : List MonthPage) :
    Option (List String) :=
  (getUrlDataAux cur rest).map (fun l => l.filterMap id)

/-- The duplicate removal of getMatchUrls (lines 487-488): the set of
row dicts, here a first-occurrence deduplication of the urls. -/
def remove_dup (urls : List String) : List String := urls.dedup

/-- A competition page as getMatchUrls drives it: the season selector
options (their visible label and, per option, the month listing that
selecting the season leads to).  The listing is the page walk of
getUrlData; the stage selector branch is represented by the
single-listing except path (no stage element), which is the general
competition behaviour the claims quantify over. -/
structure CompPage where
  seasonLabels : List String
  listing : Nat → MonthPage × List MonthPage

/-- The opening tag characters of one season option line. -/
def optionOpenChars : List Char := ['<', 'o', 'p', 't', 'i', 'o', 'n', '>']

/-- The closing tag characters of one season option line. -/
def optionCloseChars : List Char :=
  ['<', '/', 'o', 'p', 't', 'i', 'o', 'n', '>']

/-- The innerHTML line of one season option: its label between the tag
brackets. -/
def seasonOptionLine (label : String) : List Char :=
  optionOpenChars ++ label.data ++ optionCloseChars

/-- re.search(r'\>(.*?)\<', line).group(1): the lazily captured text
between the first closing angle bracket and the next opening one
(line 494), and no capture when the regex does not match. -/
def angleCapture (line : List Char) : Option String :=
  let after := (line.dropWhile (fun c => c != '>')).drop 1
  if after.any (fun c => c == '<') then
    some (String.mk (after.takeWhile (fun c => c != '<')))
  else none

/-- The result of getMatchUrls: either the deduplicated url list, or
the failure path of lines 493-497 that prints the available season
labels and raises. -/
inductive NavResult where
  | urls (selected : Nat) (found : List String)
  | seasonNotFound (available : List String) (e : PyExc)
deriving DecidableEq

/-- The season loop of getMatchUrls (lines 427-497) over the remaining
option labels, `i` being the index of the head label: the first option
whose text equals the requested season is clicked and its listing
walked (none found: the available labels are printed and a raise
aborts); `none` models the walk itself not terminating. -/
def seasonLoop (page : CompPage) (season : String) :
    List String → Nat → Option NavResult
  | [], _ =>
      some (.seasonNotFound
        ((page.seasonLabels.map seasonOptionLine).filterMap angleCapture)
        .stringRaise)
  | l :: ls, i =>
      if l = season then
        match getUrlData (page.listing i).1 (page.listing i).2 with
        | some found => some (.urls i (remove_dup found))
        | none => none
      else seasonLoop page season ls (i + 1)

/-- getMatchUrls (lines 400-497) for a competition without the special
cased stage filters. -/
def getMatchUrls (page : CompPage) (season : String) : Option NavResult :=
  seasonLoop page season page.seasonLabels 0

/-! ## getLeagueUrls -/

/-- Python substring containment: sub in s. -/
def pyIn (sub s : String) : Bool :=
  go sub.data s.data
where
  go (subl : List Char) : List Char → Bool
    | [] => subl.isEmpty
    | c :: cs => subl.isPrefixOf (c :: cs) || go subl cs

/-- list.index(x): position of the first occurrence. -/
def pyIndex (l : List String) (x : String) : Nat :=
  match l with
  | [] => 0
  | y :: ys => if y = x then 0 else pyIndex ys x + 1

/-- dict insertion semantics of leagues[name] = link: an existing key is
updated in place, a new key is appended. -/
def pyDictInsert (d : List (String × String)) (k v : String) :
    List (String × String) :=
  if d.lookup k = none then d ++ [(k, v)]
  else d.map (fun kv => if kv.1 = k then (k, v) else kv)

/-- Building a dict from zipped name/url pairs (lines 339-341). -/
def pyDictFromPairs (pairs : List (String × String)) :
    List (String × String) :=
  pairs.foldl (fun d kv => pyDictInsert d kv.1 kv.2) []

/-- getLeagueUrls (lines 298-344) on the scraped tournament list (name
and href per list item).  The Russia loop leaves r_index unbound when no
url contains the substring, which raises NameError at line 336; when it
is bound, the name at that index is overwritten before the dict is
built. -/
def getLeagueUrls (tournaments : List (String × String)) :
    Except PyExc (List (String × String)) :=
  let league_names := tournaments.map Prod.fst
  let league_urls := tournaments.map Prod.snd
  let r_index := league_urls.foldl
    (fun acc link => if pyIn "Russia" link then some (pyIndex league_urls link) else acc)
    none
  match r_index with
  | none => .error .nameError
  | some i =>
      .ok (pyDictFromPairs
        ((league_names.set i "Russian Premier League").zip league_urls))

/-! ## General helper lemmas -/

/-- Success inversion for Except bind. -/
theorem exceptBind_ok {α β : Type} {x : Except PyExc α}
    {f : α → Except PyExc β} {b : β} (h : x >>= f = .ok b) :
    ∃ a, x = .ok a ∧ f a = .ok b := by
  cases x with
  | error e => exact absurd h (by simp [Bind.bind, Except.bind])
  | ok a => exact ⟨a, rfl, by simpa [Bind.bind, Except.bind] using h⟩

/-- Decidable equality of Except results, for concrete evaluations. -/
instance {ε α : Type} [DecidableEq ε] [DecidableEq α] :
    DecidableEq (Except ε α)
  | .ok a, .ok b =>
      if h : a = b then isTrue (by rw [h])
      else isFalse (by intro hh; cases hh; exact h rfl)
  | .ok _, .error _ => isFalse (fun hh => Except.noConfusion hh)
  | .error _, .ok _ => isFalse (fun hh => Except.noConfusion hh)
  | .error e, .error f =>
      if h : e = f then isTrue (by rw [h])
      else isFalse (by intro hh; cases hh; exact h rfl)

/-! ## Claim C1 -/

/-- A one-event payload whose period is already the plain string
FirstHalf rather than a descriptor dict. -/
def evStringPeriod : Row :=
  [("eventId", Value.vint 1), ("playerId", Value.vint 7),
   ("period", Value.vstr "FirstHalf")]

/-- C1, counterexample: the claim states that normalizing the event
fields period/type/outcome_type on a raw value that is a plain string
does not fail and returns the string itself; but the event-field
normalization is the unconditional subscript x['displayName'], which
raises TypeError on the string "FirstHalf", and the event pipeline
raises rather than returning the string. -/
theorem c1_plain_string_counterexample :
    pyDisplayName (Value.vstr "FirstHalf") = .error PyExc.typeError ∧
    pyDisplayName (Value.vstr "FirstHalf") ≠ .ok (Value.vstr "FirstHalf") ∧
    eventsPipeline [evStringPeriod] 5 = .error PyExc.typeError := by
  refine ⟨rfl, by decide, by decide⟩

/-- C1, amended: the three-case display-name projection (dict with
displayName to that displayName, plain string unchanged, absent value
unchanged and not the literal string None) holds for the lineup
subbed_in_period/subbed_out_period normalizer extract_period, whose
dict-without-displayName default is NaN; the event fields
period/type/outcome_type instead use the unconditional subscript
projection, which yields the displayName for descriptor dicts but
raises TypeError on a plain string or an absent (None) value. -/
theorem c1_display_name_projection :
    (∀ es s, es.lookup "displayName" = some s →
        extract_period (Value.vdict es) = Value.vstr s ∧
        pyDisplayName (Value.vdict es) = .ok (Value.vstr s)) ∧
    (∀ es, es.lookup "displayName" = none →
        extract_period (Value.vdict es) = Value.nan ∧
        pyDisplayName (Value.vdict es) = .error PyExc.keyError) ∧
    (∀ s, extract_period (Value.vstr s) = Value.vstr s ∧
        pyDisplayName (Value.vstr s) = .error PyExc.typeError) ∧
    (extract_period Value.pynone = Value.pynone ∧
        extract_period Value.pynone ≠ Value.vstr "None" ∧
        pyDisplayName Value.pynone = .error PyExc.typeError) := by
  refine ⟨?_, ?_, fun s => ⟨rfl, rfl⟩, rfl, by decide, rfl⟩
  · intro es s h
    simp [extract_period, pyDisplayName, h]
  · intro es h
    simp [extract_period, pyDisplayName, h]

/-- Witness for C1 amended, at the concrete descriptor of a first-half
period and the concrete plain string SecondHalf. -/
theorem c1_display_name_projection_witness :
    ([("value", "1"), ("displayName", "FirstHalf")] : List (String × String)).lookup
        "displayName" = some "FirstHalf" ∧
    extract_period (Value.vdict [("value", "1"), ("displayName", "FirstHalf")]) =
      Value.vstr "FirstHalf" ∧
    pyDisplayName (Value.vdict [("value", "1"), ("displayName", "FirstHalf")]) =
      .ok (Value.vstr "FirstHalf") ∧
    extract_period (Value.vstr "SecondHalf") = Value.vstr "SecondHalf" := by
  refine ⟨by decide, ?_, ?_, ?_⟩
  · exact (c1_display_name_projection.1 _ "FirstHalf" (by decide)).1
  · exact (c1_display_name_projection.1 _ "FirstHalf" (by decide)).2
  · exact (c1_display_name_projection.2.2.1 "SecondHalf").1

/-! ## Claim C4 -/

/-- C4: on the Premier League example URL, the greedy groups of the
pattern backtrack so that the first group captures England-Premier and
the second captures League; the extraction does not yield the intended
(England, Premier-League, 2023-2024) split, the season alone coming out
as specified. -/
theorem c4_url_info_extraction :
    extract_info_from_url
        "https://www.whoscored.com/matches/1821689/Live/England-Premier-League-2023-2024-Arsenal-Chelsea" =
      some ("England-Premier", "League", "2023-2024") ∧
    ("England-Premier", "League", "2023-2024") ≠
      (("England" : String), ("Premier-League" : String), ("2023-2024" : String)) := by
  exact ⟨by decide, by decide⟩

/-! ## Claim C3 -/

/-- A complete payload event carrying every standard field, with
isGoal true and a Yellow cardType descriptor. -/
def evFull : Row :=
  [("id", .vint 101), ("eventId", .vint 11), ("minute", .vint 23),
   ("second", .vfloat 14), ("expandedMinute", .vint 23),
   ("teamId", .vint 13), ("playerId", .vint 99),
   ("relatedPlayerId", .nan),
   ("x", .vfloat 88), ("y", .vfloat 44),
   ("endX", .vfloat 100), ("endY", .vfloat 50),
   ("qualifiers", .vobj "qualifiers"),
   ("isTouch", .vbool true),
   ("blockedX", .nan), ("blockedY", .nan),
   ("goalMouthZ", .vfloat 12), ("goalMouthY", .vfloat 51),
   ("isShot", .vbool true),
   ("cardType", .vdict [("value", "31"), ("displayName", "Yellow")]),
   ("isGoal", .vbool true),
   ("type", .vdict [("value", "16"), ("displayName", "Goal")]),
   ("outcomeType", .vdict [("value", "1"), ("displayName", "Successful")]),
   ("period", .vdict [("value", "2"), ("displayName", "SecondHalf")])]

/-- The row the event pipeline emits for evFull. -/
def evFullOut : Row :=
  [("event_id", .vint 101), ("match_id", .vint 1821689),
   ("minute", .vint 23), ("second", .vfloat 14),
   ("expanded_minute", .vint 23), ("team_id", .vint 13),
   ("player_id", .vint 99), ("related_player_id", .pynone),
   ("x", .vfloat 88), ("y", .vfloat 44),
   ("end_x", .vfloat 100), ("end_y", .vfloat 50),
   ("qualifiers", .vobj "qualifiers"), ("is_touch", .vbool true),
   ("blocked_x", .pynone), ("blocked_y", .pynone),
   ("goal_mouth_z", .vfloat 12), ("goal_mouth_y", .vfloat 51),
   ("is_shot", .vbool true), ("card_type", .vbool false),
   ("is_goal", .vbool false), ("type", .vstr "Goal"),
   ("outcome_type", .vstr "Successful"), ("period", .vstr "SecondHalf")]

/-- C3: the payload of evFull carries isGoal true and a Yellow cardType,
yet the pipeline emits is_goal false and card_type false for it.  The
rename table has no isGoal entry, so the is_goal column is always
synthesized as False even when the payload carries the flag, and the
guard on the never-existing is_card column always fires and overwrites
the renamed card_type column with False. -/
theorem c3_flag_synthesis_overwrites :
    evFull.lookup "isGoal" = some (Value.vbool true) ∧
    evFull.lookup "cardType" =
      some (Value.vdict [("value", "31"), ("displayName", "Yellow")]) ∧
    eventsPipeline [evFull] 1821689 =
      .ok { cols := selectedCols, rows := [evFullOut] } ∧
    cellGet evFullOut "is_goal" = Value.vbool false ∧
    cellGet evFullOut "card_type" = Value.vbool false := by
  refine ⟨by decide, by decide, by decide, by decide, by decide⟩

/-! ## Claim C10 -/

/-- A tournament href containing the substring Russia. -/
def russiaUrl : String :=
  "https://www.whoscored.com/Regions/182/Tournaments/77/Russia-Premier-League"

/-- A tournament href with no Russia substring. -/
def germanyUrl : String :=
  "https://www.whoscored.com/Regions/81/Tournaments/3/Germany-Bundesliga"

/-- C10, counterexample: with the same Russia-containing URL listed
twice, the claim says exactly the last such entry (the one named B) has
its name replaced; but list.index returns the first occurrence of the
repeated href, so the first entry's name is replaced and B survives in
the returned mapping. -/
theorem c10_counterexample :
    getLeagueUrls [("A", russiaUrl), ("B", russiaUrl)] =
      .ok [("Russian Premier League", russiaUrl), ("B", russiaUrl)] ∧
    getLeagueUrls [("A", russiaUrl), ("B", russiaUrl)] ≠
      .ok [("A", russiaUrl), ("Russian Premier League", russiaUrl)] := by
  exact ⟨by decide, by decide⟩

/-- C10, amended: getLeagueUrls raises an unhandled NameError when no
listed URL contains the substring Russia; when some does, the name
replaced by the Russian Premier League override is the one at the first
position holding the same URL string as the last Russia-containing
entry, which is the last such entry itself whenever the listed URLs are
pairwise distinct. -/
theorem c10_russia_override (ts : List (String × String)) :
    ((∀ p ∈ ts, pyIn "Russia" p.2 = false) →
        getLeagueUrls ts = .error PyExc.nameError) ∧
    (∀ pre p post, ts = pre ++ p :: post → pyIn "Russia" p.2 = true →
        (∀ q ∈ post, pyIn "Russia" q.2 = false) →
        getLeagueUrls ts =
          .ok (pyDictFromPairs
            (((ts.map Prod.fst).set (pyIndex (ts.map Prod.snd) p.2)
                "Russian Premier League").zip (ts.map Prod.snd))) ∧
        ((ts.map Prod.snd).Nodup →
          pyIndex (ts.map Prod.snd) p.2 = pre.length)) := by
  constructor
  · intro hall
    have hfold : ∀ (l : List String) (acc : Option Nat),
        (∀ u ∈ l, pyIn "Russia" u = false) →
        l.foldl (fun acc link => if pyIn "Russia" link then
          some (pyIndex (ts.map Prod.snd) link) else acc) acc = acc := by
      intro l
      induction l with
      | nil => intro acc _; rfl
      | cons u us ih =>
          intro acc hl
          have hu : pyIn "Russia" u = false := hl u (by simp)
          simp only [List.foldl_cons, hu, if_neg Bool.false_ne_true]
          exact ih _ (fun x hx => hl x (by simp [hx]))
    have h0 := hfold (ts.map Prod.snd) none (by
      intro u hu
      obtain ⟨p, hp, hpu⟩ := List.mem_map.mp hu
      exact hpu ▸ hall p hp)
    simp only [getLeagueUrls, h0]
  · intro pre p post hts hp hpost
    have hfold : ∀ (l₂ : List String) (acc : Option Nat),
        (∀ u ∈ l₂, pyIn "Russia" u = false) →
        l₂.foldl (fun acc link => if pyIn "Russia" link then
          some (pyIndex (ts.map Prod.snd) link) else acc) acc = acc := by
      intro l₂
      induction l₂ with
      | nil => intro acc _; rfl
      | cons u us ih =>
          intro acc hl
          have hu : pyIn "Russia" u = false := hl u (by simp)
          simp only [List.foldl_cons, hu, if_neg Bool.false_ne_true]
          exact ih _ (fun x hx => hl x (by simp [hx]))
    have hsplit : ts.map Prod.snd =
        pre.map Prod.snd ++ p.2 :: post.map Prod.snd := by
      rw [hts]; simp
    have hfoldval :
        (ts.map Prod.snd).foldl (fun acc link => if pyIn "Russia" link then
          some (pyIndex (ts.map Prod.snd) link) else acc) none =
        some (pyIndex (ts.map Prod.snd) p.2) := by
      rw [hsplit]
      rw [List.foldl_append, List.foldl_cons, hp, if_pos rfl]
      rw [← hsplit]
      exact hfold (post.map Prod.snd) _ (by
        intro u hu
        obtain ⟨q, hq, hqu⟩ := List.mem_map.mp hu
        exact hqu ▸ hpost q hq)
    constructor
    · simp only [getLeagueUrls, hfoldval]
    · intro hnodup
      have hidx : ∀ (l₁ l₂ : List String) (x : String),
          (l₁ ++ x :: l₂).Nodup → pyIndex (l₁ ++ x :: l₂) x = l₁.length := by
        intro l₁
        induction l₁ with
        | nil =>
            intro l₂ x _
            simp [pyIndex]
        | cons y ys ih =>
            intro l₂ x hnd
            have hy : y ≠ x := by
              intro he
              have : y ∈ ys ++ x :: l₂ := by simp [he]
              exact (List.nodup_cons.mp hnd).1 this
            simp only [List.cons_append, pyIndex, if_neg hy, List.append_eq]
            rw [ih l₂ x (List.nodup_cons.mp hnd).2]
            simp
      have := hidx (pre.map Prod.snd) (post.map Prod.snd) p.2
        (by rw [← hsplit]; exact hnodup)
      rw [hsplit, this]
      simp

/-- Witness for C10 amended at a two-entry tournament list whose first
URL contains Russia and whose second does not. -/
theorem c10_russia_override_witness :
    getLeagueUrls [("A", russiaUrl), ("B", germanyUrl)] =
      .ok (pyDictFromPairs
        ((([("A", russiaUrl), ("B", germanyUrl)].map Prod.fst).set
            (pyIndex ([("A", russiaUrl), ("B", germanyUrl)].map Prod.snd)
              russiaUrl) "Russian Premier League").zip
          ([("A", russiaUrl), ("B", germanyUrl)].map Prod.snd))) ∧
    pyIndex ([("A", russiaUrl), ("B", germanyUrl)].map Prod.snd) russiaUrl =
      List.length ([] : List (String × String)) := by
  have h := (c10_russia_override [("A", russiaUrl), ("B", germanyUrl)]).2
    [] ("A", russiaUrl) [("B", germanyUrl)] rfl (by decide) (by decide)
  exact ⟨h.1, h.2 (by decide)⟩

/-! ## Claim C5 -/

/-- C5: over a synthetic listing of finitely many months of rows whose
oldest page reports no data for the previous week, the pagination walk
terminates; the final page is reached by the last click, its rows are
still read before the boundary is treated as terminal, and after the
duplicate removal of getMatchUrls the returned rows are exactly the
union of all months' linked rows with no duplicate entries. -/
theorem c5_month_walk (first : MonthPage) (mids : List MonthPage)
    (lastp : MonthPage) (h1 : first.rows ≠ [])
    (h2 : ∀ m ∈ mids, m.rows ≠ [] ∧ m.prevTitle ≠ noDataTitle)
    (h3 : lastp.prevTitle = noDataTitle) :
    getUrlDataAux first (mids ++ [lastp]) =
      some (first.rows ++ (mids.map MonthPage.rows).flatten ++ lastp.rows) ∧
    (remove_dup ((first.rows ++ (mids.map MonthPage.rows).flatten ++
        lastp.rows).filterMap id)).Nodup ∧
    (∀ u, u ∈ remove_dup ((first.rows ++ (mids.map MonthPage.rows).flatten ++
        lastp.rows).filterMap id) ↔
      (some u ∈ first.rows ∨ (∃ m ∈ mids, some u ∈ m.rows) ∨
        some u ∈ lastp.rows)) := by
  refine ⟨?_, ?_, ?_⟩
  · induction mids generalizing first with
    | nil =>
        rw [getUrlDataAux.eq_def]
        simp [h1, h3]
    | cons m ms ih =>
        rw [getUrlDataAux.eq_def]
        simp only [if_neg h1, List.cons_append]
        rw [if_neg (h2 m (by simp)).2]
        rw [ih m (h2 m (by simp)).1 (fun x hx => h2 x (by simp [hx]))]
        simp
  · exact List.nodup_dedup _
  · intro u
    simp only [remove_dup, List.mem_dedup, List.mem_filterMap, id_eq,
      List.mem_append, List.mem_flatten, List.mem_map]
    constructor
    · rintro ⟨a, ha, rfl⟩
      rcases ha with (ha | ⟨l, ⟨mm, hmm, rfl⟩, hl⟩) | ha
      · exact Or.inl ha
      · exact Or.inr (Or.inl ⟨mm, hmm, hl⟩)
      · exact Or.inr (Or.inr ha)
    · rintro (h | ⟨mm, hmm, hl⟩ | h)
      · exact ⟨some u, Or.inl (Or.inl h), rfl⟩
      · exact ⟨some u, Or.inl (Or.inr ⟨mm.rows, ⟨mm, hmm, rfl⟩, hl⟩), rfl⟩
      · exact ⟨some u, Or.inr h, rfl⟩

/-- The newest month of the three-month witness listing: two linked
rows (one a duplicate of a row of the oldest month) and one row with no
result link. -/
def mpNew : MonthPage := ⟨[some "u3", none, some "u1"], false, "Prev"⟩

/-- The middle month of the witness listing. -/
def mpMid : MonthPage := ⟨[some "u2"], false, "Prev"⟩

/-- The oldest month of the witness listing, whose previous-month
control reports no data for the previous week. -/
def mpOld : MonthPage := ⟨[some "u1"], false, noDataTitle⟩

/-- Witness for C5 at the concrete three-month listing: the walk
terminates with all rows collected, and the deduplicated result is the
union u3, u1, u2 without duplicates. -/
theorem c5_month_walk_witness :
    getUrlDataAux mpNew ([mpMid] ++ [mpOld]) =
      some [some "u3", none, some "u1", some "u2", some "u1"] ∧
    (remove_dup ((mpNew.rows ++ ([mpMid].map MonthPage.rows).flatten ++
        mpOld.rows).filterMap id)).Nodup ∧
    ("u1" ∈ remove_dup ((mpNew.rows ++ ([mpMid].map MonthPage.rows).flatten ++
        mpOld.rows).filterMap id) ↔
      (some "u1" ∈ mpNew.rows ∨ (∃ m ∈ [mpMid], some "u1" ∈ m.rows) ∨
        some "u1" ∈ mpOld.rows)) := by
  have h := c5_month_walk mpNew [mpMid] mpOld (by decide) (by decide) rfl
  exact ⟨h.1, h.2.1, h.2.2 "u1"⟩

/-! ## Claim C8 -/

/-- The label captured back out of a season option line is the label
itself, for labels with no opening angle bracket. -/
theorem angleCapture_seasonOptionLine (l : String)
    (h : ∀ c ∈ l.data, c ≠ '<') :
    angleCapture (seasonOptionLine l) = some l := by
  have h1 : (seasonOptionLine l).dropWhile (fun c => c != '>') =
      '>' :: (l.data ++ optionCloseChars) := rfl
  have h2 : ∀ xs : List Char, (∀ c ∈ xs, c ≠ '<') →
      List.takeWhile (fun c => c != '<') (xs ++ optionCloseChars) = xs := by
    intro xs
    induction xs with
    | nil => intro _; rfl
    | cons c cs ih =>
        intro hc
        have hcne : (c != '<') = true := by
          simp [bne_iff_ne]
          exact hc c (by simp)
        simp only [List.cons_append, List.takeWhile_cons, hcne, if_true]
        rw [ih (fun x hx => hc x (by simp [hx]))]
    -- the base case stops at the literal opening bracket of the close tag
  have h3 : (l.data ++ optionCloseChars).any (fun c => c == '<') = true := by
    simp [optionCloseChars]
  unfold angleCapture
  rw [h1]
  simp only [List.drop_succ_cons, List.drop_zero, h3, if_true]
  rw [h2 l.data h]

/-- The printed season names equal the option labels, for
bracket-free labels. -/
theorem seasonNames_eq_labels (ls : List String)
    (h : ∀ l ∈ ls, ∀ c ∈ l.data, c ≠ '<') :
    (ls.map seasonOptionLine).filterMap angleCapture = ls := by
  induction ls with
  | nil => rfl
  | cons l ls ih =>
      simp only [List.map_cons, List.filterMap_cons,
        angleCapture_seasonOptionLine l (h l (by simp))]
      rw [ih (fun x hx => h x (by simp [hx]))]

/-- C8: when no season option label equals the requested season, the
navigation terminates in the failure branch that surfaces the full list
of available labels and raises; when the requested season occurs among
the labels, the option selected is the first one whose label equals it,
and the navigation result is that option's listing walk. -/
theorem c8_season_selection (page : CompPage) (season : String)
    (hwf : ∀ l ∈ page.seasonLabels, ∀ c ∈ l.data, c ≠ '<') :
    ((∀ l ∈ page.seasonLabels, l ≠ season) →
       getMatchUrls page season =
         some (.seasonNotFound page.seasonLabels .stringRaise)) ∧
    (∀ pre post, page.seasonLabels = pre ++ season :: post →
       season ∉ pre →
       getMatchUrls page season =
         (getUrlData (page.listing pre.length).1
             (page.listing pre.length).2).map
           (fun found => NavResult.urls pre.length (remove_dup found))) := by
  constructor
  · intro hne
    have hloop : ∀ (ls : List String) (i : Nat), (∀ l ∈ ls, l ≠ season) →
        seasonLoop page season ls i =
          some (.seasonNotFound
            ((page.seasonLabels.map seasonOptionLine).filterMap angleCapture)
            .stringRaise) := by
      intro ls
      induction ls with
      | nil => intro i _; rfl
      | cons l ls ih =>
          intro i hl
          rw [seasonLoop]
          rw [if_neg (hl l (by simp))]
          exact ih (i + 1) (fun x hx => hl x (by simp [hx]))
    unfold getMatchUrls
    rw [hloop page.seasonLabels 0 hne, seasonNames_eq_labels _ hwf]
  · intro pre post hsplit hpre
    have hloop : ∀ (pre' : List String) (i : Nat), season ∉ pre' →
        seasonLoop page season (pre' ++ season :: post) i =
          (getUrlData (page.listing (i + pre'.length)).1
              (page.listing (i + pre'.length)).2).map
            (fun found => NavResult.urls (i + pre'.length) (remove_dup found)) := by
      intro pre'
      induction pre' with
      | nil =>
          intro i _
          rw [List.nil_append, seasonLoop, if_pos rfl]
          cases h : getUrlData (page.listing i).1 (page.listing i).2 with
          | none => simp [h]
          | some found => simp [h]
      | cons l ls ih =>
          intro i hl
          have hlne : l ≠ season := by
            intro he
            exact hl (by simp [he])
          rw [List.cons_append, seasonLoop, if_neg hlne]
          rw [ih (i + 1) (fun hx => hl (by simp [hx]))]
          have : i + 1 + ls.length = i + (ls.length + 1) := by omega
          rw [this]
          rfl
    unfold getMatchUrls
    rw [hsplit]
    have := hloop pre 0 hpre
    rw [this]
    have h0 : 0 + pre.length = pre.length := by omega
    rw [h0]

/-- The witness competition page: two seasons, every selection leading
to the concrete three-month listing. -/
def compPage0 : CompPage :=
  { seasonLabels := ["2023/2024", "2022/2023"]
    listing := fun _ => (mpNew, [mpMid, mpOld]) }

/-- Witness for C8 at the concrete competition page: requesting a
missing season surfaces both labels and fails, requesting the first
label selects option zero and returns its deduplicated listing. -/
theorem c8_season_selection_witness :
    getMatchUrls compPage0 "1999/2000" =
      some (.seasonNotFound ["2023/2024", "2022/2023"] .stringRaise) ∧
    getMatchUrls compPage0 "2023/2024" =
      (getUrlData (compPage0.listing 0).1 (compPage0.listing 0).2).map
        (fun found => NavResult.urls 0 (remove_dup found)) := by
  constructor
  · exact (c8_season_selection compPage0 "1999/2000" (by decide)).1 (by decide)
  · have h := (c8_season_selection compPage0 "2023/2024" (by decide)).2
      [] ["2022/2023"] rfl (by decide)
    exact h

/-! ## Claim C6: row and column invariant lemmas -/

/-- Lookup at the head key. -/
theorem lookup_cons_eq (k : String) (w : Value) (rs : Row) :
    ((k, w) :: rs).lookup k = some w := by
  simp [List.lookup_cons]

/-- Lookup skips a head entry with a different key. -/
theorem lookup_cons_ne (k c : String) (w : Value) (rs : Row) (h : c ≠ k) :
    ((k, w) :: rs).lookup c = rs.lookup c := by
  rw [List.lookup_cons]
  have hb : (c == k) = false := by
    simp [beq_iff_eq]
    exact h
  rw [hb]

/-- Setting a cell makes it the value looked up. -/
theorem lookup_setCell_self (r : Row) (c : String) (v : Value) :
    (setCell r c v).lookup c = some v := by
  unfold setCell
  by_cases h : r.lookup c = none
  · rw [if_pos h]
    induction r with
    | nil => simp [lookup_cons_eq]
    | cons kv rs ih =>
        rcases kv with ⟨k, w⟩
        by_cases hk : c = k
        · exfalso
          subst hk
          rw [lookup_cons_eq] at h
          cases h
        · rw [List.cons_append, lookup_cons_ne k c w _ hk]
          rw [lookup_cons_ne k c w rs hk] at h
          exact ih h
  · rw [if_neg h]
    induction r with
    | nil => exact absurd rfl h
    | cons kv rs ih =>
        rcases kv with ⟨k, w⟩
        by_cases hk : k = c
        · subst hk
          simp only [List.map_cons, if_true]
          exact lookup_cons_eq k v _
        · have hck : c ≠ k := fun he => hk he.symm
          simp only [List.map_cons, if_neg hk]
          rw [lookup_cons_ne k c w _ hck]
          rw [lookup_cons_ne k c w rs hck] at h
          exact ih h

/-- Setting a cell leaves the lookup of other keys unchanged. -/
theorem lookup_setCell_ne (r : Row) (c c' : String) (v : Value)
    (hne : c' ≠ c) : (setCell r c v).lookup c' = r.lookup c' := by
  unfold setCell
  by_cases h : r.lookup c = none
  · rw [if_pos h]
    clear h
    induction r with
    | nil => simp [lookup_cons_ne c c' v [] hne]
    | cons kv rs ih =>
        rcases kv with ⟨k, w⟩
        by_cases hk : c' = k
        · subst hk
          rw [List.cons_append, lookup_cons_eq, lookup_cons_eq]
        · rw [List.cons_append, lookup_cons_ne k c' w _ hk,
            lookup_cons_ne k c' w rs hk]
          exact ih
  · rw [if_neg h]
    clear h
    induction r with
    | nil => rfl
    | cons kv rs ih =>
        rcases kv with ⟨k, w⟩
        by_cases hk : k = c
        · subst hk
          simp only [List.map_cons, if_true]
          rw [lookup_cons_ne k c' v _ hne, lookup_cons_ne k c' w rs hne]
          exact ih
        · by_cases hk2 : c' = k
          · subst hk2
            simp only [List.map_cons, if_neg hk]
            rw [lookup_cons_eq, lookup_cons_eq]
          · simp only [List.map_cons, if_neg hk]
            rw [lookup_cons_ne k c' w _ hk2, lookup_cons_ne k c' w rs hk2]
            exact ih

/-- Cell access after setting the same cell. -/
theorem cellGet_setCell_self (r : Row) (c : String) (v : Value) :
    cellGet (setCell r c v) c = v := by
  simp [cellGet, lookup_setCell_self]

/-- Cell access after setting a different cell. -/
theorem cellGet_setCell_ne (r : Row) (c c' : String) (v : Value)
    (hne : c' ≠ c) : cellGet (setCell r c v) c' = cellGet r c' := by
  simp [cellGet, lookup_setCell_ne r c c' v hne]

/-- A per-column invariant over every row of a dataframe. -/
def ColInv (c : String) (Q : Value → Prop) (df : Df) : Prop :=
  ∀ r ∈ df.rows, Q (cellGet r c)

/-- Every row produced by mapRowsE comes from a source row. -/
theorem mem_mapRowsE {f : Row → Except PyExc Row} :
    ∀ {rs rs' : List Row}, mapRowsE f rs = .ok rs' →
    ∀ r' ∈ rs', ∃ r ∈ rs, f r = .ok r' := by
  intro rs
  induction rs with
  | nil =>
      intro rs' h r' hr'
      cases h
      cases hr'
  | cons r rs ih =>
      intro rs' h r' hr'
      unfold mapRowsE at h
      obtain ⟨a, ha, h2⟩ := exceptBind_ok h
      obtain ⟨as, has, h3⟩ := exceptBind_ok h2
      cases h3
      rcases List.mem_cons.mp hr' with hr' | hr'
      · exact ⟨r, by simp, hr' ▸ ha⟩
      · obtain ⟨r0, hr0, hf⟩ := ih has r' hr'
        exact ⟨r0, by simp [hr0], hf⟩

/-- Successful applyCol: columns unchanged and every output row is a
source row with the one cell rewritten. -/
theorem applyCol_rows {df : Df} {c : String}
    {f : Value → Except PyExc Value} {df' : Df}
    (h : applyCol df c f = .ok df') :
    df'.cols = df.cols ∧
    ∀ r' ∈ df'.rows, ∃ r ∈ df.rows, ∃ v',
      f (cellGet r c) = .ok v' ∧ r' = setCell r c v' := by
  unfold applyCol at h
  split at h
  · obtain ⟨rows', hrows, h2⟩ := exceptBind_ok h
    cases h2
    refine ⟨rfl, ?_⟩
    intro r' hr'
    obtain ⟨r, hr, hfr⟩ := mem_mapRowsE hrows r' hr'
    obtain ⟨v', hv, h3⟩ := exceptBind_ok hfr
    cases h3
    exact ⟨r, hr, v', hv, rfl⟩
  · cases h

/-- applyCol establishes on its target column any postcondition of the
applied function. -/
theorem colInv_applyCol_self {df : Df} {c : String}
    {f : Value → Except PyExc Value} {df' : Df} {Q : Value → Prop}
    (h : applyCol df c f = .ok df')
    (hQ : ∀ v w, f v = .ok w → Q w) : ColInv c Q df' := by
  intro r' hr'
  obtain ⟨r, _, v', hv, rfl⟩ := (applyCol_rows h).2 r' hr'
  rw [cellGet_setCell_self]
  exact hQ _ _ hv

/-- applyCol preserves invariants of the other columns. -/
theorem colInv_applyCol_other {df : Df} {c c' : String}
    {f : Value → Except PyExc Value} {df' : Df} {Q : Value → Prop}
    (hne : c' ≠ c) (h : applyCol df c f = .ok df')
    (hInv : ColInv c' Q df) : ColInv c' Q df' := by
  intro r' hr'
  obtain ⟨r, hr, v', _, rfl⟩ := (applyCol_rows h).2 r' hr'
  rw [cellGet_setCell_ne r c c' v' hne]
  exact hInv r hr

/-- astypeCols preserves invariants of columns it does not touch. -/
theorem colInv_astypeCols_not_mem {conv : Value → Except PyExc Value}
    {c' : String} {Q : Value → Prop} :
    ∀ {cs : List String} {df df' : Df}, c' ∉ cs →
    astypeCols conv df cs = .ok df' → ColInv c' Q df → ColInv c' Q df' := by
  intro cs
  induction cs with
  | nil =>
      intro df df' _ h hInv
      cases h
      exact hInv
  | cons c cs ih =>
      intro df df' hc h hInv
      unfold astypeCols at h
      obtain ⟨df₁, h1, h2⟩ := exceptBind_ok h
      have hne : c' ≠ c := fun he => hc (by simp [he])
      exact ih (fun hx => hc (by simp [hx])) h2
        (colInv_applyCol_other hne h1 hInv)

/-- astypeCols establishes the conversion postcondition on each listed
column. -/
theorem colInv_astypeCols_target {conv : Value → Except PyExc Value}
    {c : String} {Q : Value → Prop}
    (hQ : ∀ v w, conv v = .ok w → Q w) :
    ∀ {cs : List String} {df df' : Df}, c ∈ cs → cs.Nodup →
    astypeCols conv df cs = .ok df' → ColInv c Q df' := by
  intro cs
  induction cs with
  | nil =>
      intro df df' hc _ _
      cases hc
  | cons c₀ cs ih =>
      intro df df' hc hnd h
      unfold astypeCols at h
      obtain ⟨df₁, h1, h2⟩ := exceptBind_ok h
      rcases List.mem_cons.mp hc with he | hm
      · subst he
        exact colInv_astypeCols_not_mem (List.nodup_cons.mp hnd).1 h2
          (colInv_applyCol_self h1 hQ)
      · exact ih hm (List.nodup_cons.mp hnd).2 h2

/-- The rows of a successful column projection. -/
theorem selectCols_rows {df : Df} {cs : List String} {df' : Df}
    (h : selectCols df cs = .ok df') :
    df'.rows = df.rows.map (fun r => cs.map (fun c => (c, cellGet r c))) := by
  unfold selectCols at h
  split at h
  · cases h; rfl
  · cases h

/-- Projecting a row keeps the cells of the projected columns. -/
theorem cellGet_projRow (r : Row) {cs : List String} {c : String}
    (hc : c ∈ cs) :
    cellGet (cs.map (fun c' => (c', cellGet r c'))) c = cellGet r c := by
  induction cs with
  | nil => cases hc
  | cons c₀ cs ih =>
      by_cases he : c = c₀
      · subst he
        simp [cellGet, List.lookup_cons]
      · have hck : (c == c₀) = false := by simp [beq_iff_eq]; exact he
        rcases List.mem_cons.mp hc with h | hm
        · exact absurd h he
        · simp only [List.map_cons]
          unfold cellGet
          rw [List.lookup_cons, hck]
          exact ih hm

/-- selectCols preserves invariants of the projected columns. -/
theorem colInv_selectCols {df : Df} {cs : List String} {df' : Df}
    {c : String} {Q : Value → Prop} (hc : c ∈ cs)
    (h : selectCols df cs = .ok df') (hInv : ColInv c Q df) :
    ColInv c Q df' := by
  intro r' hr'
  rw [selectCols_rows h] at hr'
  obtain ⟨r, hr, rfl⟩ := List.mem_map.mp hr'
  rw [cellGet_projRow r hc]
  exact hInv r hr

/-- filterColNe establishes the disequality on its column. -/
theorem colInv_filterColNe_self {df : Df} {c : String} {v : Value}
    {df' : Df} (h : filterColNe df c v = .ok df') :
    ColInv c (fun w => w ≠ v) df' := by
  unfold filterColNe at h
  split at h
  · cases h
    intro r hr
    have := (List.mem_filter.mp hr).2
    simpa using this
  · cases h

/-- mapColsCell preserves any invariant stable under the transform. -/
theorem colInv_mapColsCell {cs : List String} {t : Value → Value}
    {df : Df} {c : String} {Q : Value → Prop}
    (ht : ∀ v, Q v → Q (t v)) (hInv : ColInv c Q df) :
    ColInv c Q (mapColsCell cs t df) := by
  have aux : ∀ (cs' : List String) (r : Row), Q (cellGet r c) →
      Q (cellGet (cs'.foldl
        (fun r' c' => setCell r' c' (t (cellGet r' c'))) r) c) := by
    intro cs'
    induction cs' with
    | nil => intro r hr; exact hr
    | cons c₀ cs' ih =>
        intro r hr
        rw [List.foldl_cons]
        apply ih
        by_cases he : c = c₀
        · subst he
          rw [cellGet_setCell_self]
          exact ht _ hr
        · rw [cellGet_setCell_ne _ _ _ _ he]
          exact hr
  intro r' hr'
  obtain ⟨r, hr, rfl⟩ := List.mem_map.mp hr'
  exact aux cs r (hInv r hr)

/-- pyIntConv only succeeds with an int. -/
theorem pyIntConv_post (v w : Value) (h : pyIntConv v = .ok w) :
    ∃ n, w = Value.vint n := by
  cases v <;> simp [pyIntConv] at h <;> try exact ⟨_, h.symm⟩
  case vstr s =>
    rcases hs : pyIntParse s with _ | n <;> rw [hs] at h
    · cases h
    · exact ⟨n, by cases h; rfl⟩

/-- C6: whenever the event normalization succeeds, no emitted record has
resolved type OffsideGiven and every emitted record has an integer
player_id (rows whose payload entry lacked a player id were dropped by
the dropna and the player_id coercion admits only integers). -/
theorem c6_no_offside_and_player_present (match_events : List Row)
    (match_id : Int) (df : Df)
    (h : eventsPipeline match_events match_id = .ok df) :
    ∀ r ∈ df.rows, cellGet r "type" ≠ Value.vstr "OffsideGiven" ∧
      ∃ n, cellGet r "player_id" = Value.vint n := by
  unfold eventsPipeline at h
  obtain ⟨df1, h1, h⟩ := exceptBind_ok h
  obtain ⟨df3, h3, h⟩ := exceptBind_ok h
  obtain ⟨df4, h4, h⟩ := exceptBind_ok h
  obtain ⟨df5, h5, h⟩ := exceptBind_ok h
  obtain ⟨df6, h6, h⟩ := exceptBind_ok h
  obtain ⟨df7, h7, h⟩ := exceptBind_ok h
  obtain ⟨df8, h8, h⟩ := exceptBind_ok h
  obtain ⟨df9, h9, h⟩ := exceptBind_ok h
  obtain ⟨df10, h10, h⟩ := exceptBind_ok h
  obtain ⟨df11, h11, h⟩ := exceptBind_ok h
  cases h
  have htstable1 : ∀ v : Value, v ≠ Value.vstr "OffsideGiven" →
      (if isnull v then Value.vbool false else v) ≠
        Value.vstr "OffsideGiven" := by
    intro v hv
    by_cases hn : isnull v = true
    · simp [hn]
    · simp [hn, hv]
  have htstable2 : ∀ v : Value, v ≠ Value.vstr "OffsideGiven" →
      (if v = Value.nan then Value.pynone else v) ≠
        Value.vstr "OffsideGiven" := by
    intro v hv
    by_cases hn : v = Value.nan
    · simp [hn]
    · simp [hn, hv]
  have hpstable1 : ∀ v : Value, (∃ n, v = Value.vint n) →
      ∃ n, (if isnull v then Value.vbool false else v) = Value.vint n := by
    rintro v ⟨n, rfl⟩
    exact ⟨n, by simp [isnull]⟩
  have hpstable2 : ∀ v : Value, (∃ n, v = Value.vint n) →
      ∃ n, (if v = Value.nan then Value.pynone else v) = Value.vint n := by
    rintro v ⟨n, rfl⟩
    exact ⟨n, by simp⟩
  have hT7 : ColInv "type" (fun w => w ≠ Value.vstr "OffsideGiven") df7 :=
    colInv_filterColNe_self h7
  have hT8 := colInv_selectCols (by decide : "type" ∈ selectedCols) h8 hT7
  have hT9 := colInv_astypeCols_not_mem (by decide : "type" ∉ intCols) h9 hT8
  have hT10 := colInv_astypeCols_not_mem
    (by decide : "type" ∉ floatColsList) h10 hT9
  have hT11 := colInv_astypeCols_not_mem
    (by decide : "type" ∉ boolCols) h11 hT10
  have hP9 : ColInv "player_id" (fun w => ∃ n, w = Value.vint n) df9 :=
    colInv_astypeCols_target pyIntConv_post
      (by decide : "player_id" ∈ intCols) (by decide) h9
  have hP10 := colInv_astypeCols_not_mem
    (by decide : "player_id" ∉ floatColsList) h10 hP9
  have hP11 := colInv_astypeCols_not_mem
    (by decide : "player_id" ∉ boolCols) h11 hP10
  intro r hr
  constructor
  · exact colInv_mapColsCell htstable2
      (colInv_mapColsCell htstable1 (colInv_mapColsCell htstable1 hT11)) r hr
  · exact colInv_mapColsCell hpstable2
      (colInv_mapColsCell hpstable1 (colInv_mapColsCell hpstable1 hP11)) r hr

/-- Witness for C6: the emitted row of the concrete evFull payload has
type Goal, not OffsideGiven, and the integer player id 99. -/
theorem c6_no_offside_and_player_present_witness :
    cellGet evFullOut "type" ≠ Value.vstr "OffsideGiven" ∧
    ∃ n, cellGet evFullOut "player_id" = Value.vint n := by
  exact c6_no_offside_and_player_present [evFull] 1821689
    { cols := selectedCols, rows := [evFullOut] } (by decide)
    evFullOut (by simp)

/-! ## Claim C7 -/

/-- The match_info row always carries the URL-derived match id. -/
theorem matchInfoStep_row {md : MatchDict} {mid : Int}
    {reg comp seas : Option String} {row : Row}
    (h : matchInfoStep md mid reg comp seas = .ok row) :
    row.lookup "match_id" = some (Value.vint mid) := by
  unfold matchInfoStep at h
  obtain ⟨a1, _, h⟩ := exceptBind_ok h
  obtain ⟨a2, _, h⟩ := exceptBind_ok h
  obtain ⟨a3, _, h⟩ := exceptBind_ok h
  obtain ⟨a4, _, h⟩ := exceptBind_ok h
  obtain ⟨a5, _, h⟩ := exceptBind_ok h
  obtain ⟨a6, _, h⟩ := exceptBind_ok h
  obtain ⟨a7, _, h⟩ := exceptBind_ok h
  obtain ⟨a8, _, h⟩ := exceptBind_ok h
  obtain ⟨a9, _, h⟩ := exceptBind_ok h
  cases h
  exact lookup_cons_eq "match_id" (Value.vint mid) _

/-- Any matches upsert issued by the scrape body carries a single row
whose match_id is the supplied URL-derived id. -/
theorem scrapeBody_matches_mem {md : MatchDict} {mid : Int}
    {reg comp seas : Option String} {ms : List Row}
    (h : SinkCall.matches ms ∈ (scrapeBody md mid reg comp seas).1) :
    ∃ mrow, ms = [mrow] ∧ mrow.lookup "match_id" = some (Value.vint mid) := by
  unfold scrapeBody at h
  repeat' split at h
  all_goals simp at h
  all_goals exact ⟨_, h, matchInfoStep_row (by assumption)⟩

/-- The code-side negative index parse agrees with the spec-side
third-from-last segment parse. -/
theorem specMatchId_of_pyUrlMatchId {url : String} {n : Int}
    (h : pyUrlMatchId url = .ok n) : specMatchId url = some n := by
  simp only [pyUrlMatchId] at h
  unfold specMatchId
  split at h
  · cases h
  · rename_i hlen
    have h2 : 2 < (pySplit '/' url).length := by omega
    have hrev : (pySplit '/' url).reverse.getD 2 "" =
        (pySplit '/' url).getD ((pySplit '/' url).length - 3) "" := by
      rw [List.getD_eq_getElem?_getD, List.getD_eq_getElem?_getD]
      rw [List.getElem?_reverse h2]
      have : (pySplit '/' url).length - 1 - 2 =
          (pySplit '/' url).length - 3 := by omega
      rw [this]
    rw [hrev]
    split at h
    · rename_i m hm
      cases h
      exact hm
    · cases h

/-- C7: every matches upsert issued by scrape_whoscored_data stores,
for its single MatchRecord row, the integer parsed from the
third-from-last path segment of the source URL. -/
theorem c7_match_id_round_trip (url : String) (page : PageContent)
    (ms : List Row)
    (h : SinkCall.matches ms ∈ (scrape_whoscored_data url page).1) :
    ∃ n mrow, specMatchId url = some n ∧ ms = [mrow] ∧
      mrow.lookup "match_id" = some (Value.vint n) := by
  unfold scrape_whoscored_data at h
  split at h
  · cases h
  · rename_i mid hmid
    split at h
    · cases h
    · cases h
    · rename_i md
      obtain ⟨mrow, hms, hrow⟩ := scrapeBody_matches_mem h
      exact ⟨mid, mrow, specMatchId_of_pyUrlMatchId hmid, hms, hrow⟩

/-- A complete home roster entry for the concrete payload. -/
def playerA : PlayerDict :=
  { playerId := some (.vint 99), shirtNo := some (.vint 9),
    name := some "Alpha", age := some (.vint 25),
    height := some (.vint 180), weight := some (.vint 75),
    position := some "FW", field := some "home",
    isFirstEleven := some (.vbool true), subbedInPlayerId := none,
    subbedOutPeriod := none, subbedOutExpandedMinute := none,
    subbedInPeriod := none, subbedInExpandedMinute := none,
    subbedOutPlayerId := none }

/-- A complete away roster entry that was substituted off, its
subbedOutPeriod a descriptor dict. -/
def playerB : PlayerDict :=
  { playerId := some (.vint 77), shirtNo := some (.vint 7),
    name := some "Beta", age := some (.vint 28),
    height := some (.vint 175), weight := some (.vint 70),
    position := some "GK", field := some "away",
    isFirstEleven := some (.vbool true), subbedInPlayerId := none,
    subbedOutPeriod := some (.vdict [("value", "2"), ("displayName", "SecondHalf")]),
    subbedOutExpandedMinute := some (.vfloat 88),
    subbedInPeriod := none, subbedInExpandedMinute := none,
    subbedOutPlayerId := none }

/-- The home team block of the concrete payload. -/
def teamHome : TeamDict :=
  { teamId := some (.vint 13), name := some "Arsenal",
    countryName := some "England", managerName := some "MA",
    players := some [playerA] }

/-- The away team block of the concrete payload. -/
def teamAway : TeamDict :=
  { teamId := some (.vint 14), name := some "Chelsea",
    countryName := some "England", managerName := some "MP",
    players := some [playerB] }

/-- A complete decoded payload on which the whole per-match pipeline
succeeds. -/
def mdOK : MatchDict :=
  { events := some [evFull], home := some teamHome, away := some teamAway,
    startDate := some "2024-04-23T19:00:00", score := some "3 : 1",
    maxMinute := some (.vint 94), expandedMaxMinute := some (.vint 99) }

/-- The Premier League example match URL. -/
def urlPL : String :=
  "https://www.whoscored.com/matches/1821689/Live/England-Premier-League-2023-2024-Arsenal-Chelsea"

/-- The match row the scrape of urlPL with payload mdOK upserts. -/
def matchRowPL : Row :=
  [("match_id", .vint 1821689), ("match_date", .vstr "2024-04-23"),
   ("home_score", .vint 3), ("away_score", .vint 1),
   ("home_team_name", .vstr "Arsenal"), ("away_team_name", .vstr "Chelsea"),
   ("match_minutes", .vint 94), ("match_minutes_expanded", .vint 99),
   ("region", .vstr "England-Premier"), ("season", .vstr "2023-2024"),
   ("competition", .vstr "League")]

/-- Witness for C7 at the concrete successful scrape of urlPL. -/
theorem c7_match_id_round_trip_witness :
    ∃ n mrow, specMatchId urlPL = some n ∧ [matchRowPL] = [mrow] ∧
      mrow.lookup "match_id" = some (Value.vint n) :=
  c7_match_id_round_trip urlPL (some (.ok mdOK)) [matchRowPL] (by decide)

/-! ## Claim C2 -/

/-- A payload whose only event has a plain-string period: normalizing it
raises TypeError, which the except clause does not catch. -/
def mdTypeErr : MatchDict :=
  { events := some [evStringPeriod], home := none, away := none,
    startDate := none, score := none, maxMinute := none,
    expandedMaxMinute := none }

/-- First batch URL. -/
def urlA : String :=
  "https://www.whoscored.com/matches/111/Live/England-Premier-League-2023-2024-A-B"

/-- Second batch URL. -/
def urlB : String :=
  "https://www.whoscored.com/matches/222/Live/England-Premier-League-2023-2024-C-D"

/-- C2, counterexample: the claim states that every exception raised
while normalizing a match payload is caught inside the per-match scrape
and the loop proceeds, no failure of any exception type aborting the
batch; but a TypeError raised by the period normalization escapes the
except clause (which catches only KeyError, IndexError, ValueError and
JSONDecodeError) and aborts the batch before the second URL is
visited. -/
theorem c2_typeerror_aborts_batch :
    (scrape_whoscored_data urlA (some (.ok mdTypeErr))).2 =
      .raised PyExc.typeError ∧
    runBatch [(urlA, some (.ok mdTypeErr)), (urlB, none)] [] =
      ([], [urlA], [], some PyExc.typeError) ∧
    urlB ∉ (runBatch [(urlA, some (.ok mdTypeErr)), (urlB, none)] []).2.1 := by
  refine ⟨by decide, by decide, by decide⟩

/-- classifyExc only yields handled outcomes for caught exceptions. -/
theorem classify_handled {e' e : PyExc} (h : classifyExc e' = .handled e) :
    caught e = true := by
  unfold classifyExc at h
  split at h
  · cases h
    assumption
  · cases h

/-- A handled scrape outcome always carries a caught exception. -/
theorem scrape_handled_caught {url : String} {page : PageContent}
    {e : PyExc} (h : (scrape_whoscored_data url page).2 = .handled e) :
    caught e = true := by
  unfold scrape_whoscored_data at h
  split at h
  · cases h
  · rename_i mid hmid
    split at h
    · cases h
    · exact classify_handled h
    · rename_i md
      have h' : (match (scrapeBody md mid
          ((extract_info_from_url url).map (fun t => t.1))
          ((extract_info_from_url url).map (fun t => t.2.1))
          ((extract_info_from_url url).map (fun t => t.2.2))).2 with
          | none => Outcome.success
          | some e' => classifyExc e') = .handled e := h
      rcases hr : (scrapeBody md mid
          ((extract_info_from_url url).map (fun t => t.1))
          ((extract_info_from_url url).map (fun t => t.2.1))
          ((extract_info_from_url url).map (fun t => t.2.2))).2 with _ | e'
      · rw [hr] at h'
        cases h'
      · rw [hr] at h'
        exact classify_handled h'

/-- When no per-match scrape outcome in the batch is an uncaught raise,
the loop visits every URL and nothing aborts. -/
theorem runBatch_all_visited : ∀ (batch : List (String × PageContent))
    (sink : List SinkCall),
    (∀ up ∈ batch, ∀ e, (scrape_whoscored_data up.1 up.2).2 ≠ .raised e) →
    (runBatch batch sink).2.1 = batch.map Prod.fst ∧
    (runBatch batch sink).2.2.2 = none := by
  intro batch
  induction batch with
  | nil => intro sink _; exact ⟨rfl, rfl⟩
  | cons up rest ih =>
      intro sink hall
      rcases up with ⟨url, page⟩
      have hhd : ∀ e, (scrape_whoscored_data url page).2 ≠ .raised e :=
        fun e => hall (url, page) (by simp) e
      have htl := ih (sink ++ (scrape_whoscored_data url page).1)
        (fun q hq e => hall q (by simp [hq]) e)
      simp only [runBatch]
      rcases hout : (scrape_whoscored_data url page).2 with _ | _ | e | e
      · simp only [hout, List.map_cons]
        exact ⟨by rw [htl.1], htl.2⟩
      · simp only [hout, List.map_cons]
        exact ⟨by rw [htl.1], htl.2⟩
      · simp only [hout, List.map_cons]
        exact ⟨by rw [htl.1], htl.2⟩
      · exact absurd hout (hhd e)

/-- A caught per-match failure is logged with its URL and the loop
continues with the remaining URLs. -/
theorem runBatch_handled_step (url : String) (page : PageContent)
    (rest : List (String × PageContent)) (sink : List SinkCall)
    (e : PyExc) (h : (scrape_whoscored_data url page).2 = .handled e) :
    (url, e) ∈ (runBatch ((url, page) :: rest) sink).2.2.1 ∧
    (runBatch ((url, page) :: rest) sink).2.1 =
      url :: (runBatch rest
        (sink ++ (scrape_whoscored_data url page).1)).2.1 := by
  simp only [runBatch, h]
  exact ⟨by simp, by trivial⟩

/-- C2, amended: exceptions of the caught kinds (KeyError, IndexError,
ValueError including pydantic validation, JSONDecodeError) raised inside
the per-match try block produce a handled outcome that is logged with
the URL while the loop proceeds through every batch URL; any other
exception kind (TypeError in particular) and anything raised before the
try block escape scrape_whoscored_data and abort the whole batch. -/
theorem c2_catch_policy (batch : List (String × PageContent))
    (sink : List SinkCall) :
    ((∀ up ∈ batch, ∀ e, (scrape_whoscored_data up.1 up.2).2 ≠ .raised e) →
        (runBatch batch sink).2.1 = batch.map Prod.fst ∧
        (runBatch batch sink).2.2.2 = none) ∧
    (∀ url page rest e, batch = (url, page) :: rest →
        (scrape_whoscored_data url page).2 = .handled e →
        caught e = true ∧
        (url, e) ∈ (runBatch batch sink).2.2.1 ∧
        (runBatch batch sink).2.1 =
          url :: (runBatch rest
            (sink ++ (scrape_whoscored_data url page).1)).2.1) := by
  constructor
  · exact runBatch_all_visited batch sink
  · intro url page rest e hb h
    subst hb
    obtain ⟨hlog, hvisit⟩ := runBatch_handled_step url page rest sink e h
    exact ⟨scrape_handled_caught h, hlog, hvisit⟩

/-- Witness for C2 amended: a batch of a no-payload page and a page
whose embedded JSON fails to decode is fully visited with no abort, and
the decode failure of the second page is logged with its URL. -/
theorem c2_catch_policy_witness :
    ((runBatch [(urlA, (none : PageContent)),
        (urlB, some (.error .jsonDecodeError))] []).2.1 =
      [(urlA, (none : PageContent)),
        (urlB, some (.error .jsonDecodeError))].map Prod.fst ∧
      (runBatch [(urlA, (none : PageContent)),
        (urlB, some (.error .jsonDecodeError))] []).2.2.2 = none) ∧
    (caught PyExc.jsonDecodeError = true ∧
      (urlB, PyExc.jsonDecodeError) ∈
        (runBatch [(urlB, some (.error .jsonDecodeError)), (urlA, none)]
          []).2.2.1) := by
  constructor
  · refine (c2_catch_policy [(urlA, (none : PageContent)),
      (urlB, some (.error .jsonDecodeError))] []).1 ?_
    intro up hup e
    rcases List.mem_cons.mp hup with rfl | hup2
    · have h : (scrape_whoscored_data urlA (none : PageContent)).2 =
          .noData := by decide
      rw [h]
      intro hc
      cases hc
    · rcases List.mem_singleton.mp hup2 with rfl
      have h : (scrape_whoscored_data urlB
          (some (.error PyExc.jsonDecodeError))).2 =
          .handled .jsonDecodeError := by decide
      rw [h]
      intro hc
      cases hc
  · have h := (c2_catch_policy
      [(urlB, some (.error PyExc.jsonDecodeError)), (urlA, none)] []).2
      urlB (some (.error PyExc.jsonDecodeError)) [(urlA, none)]
      PyExc.jsonDecodeError rfl (by decide)
    exact ⟨h.1, h.2.1⟩

/-! ## Claim C9 -/

/-- The upserts issued by the scrape body are always an initial run of
the fixed order events, players, matches, lineups. -/
theorem scrapeBody_calls_order (md : MatchDict) (mid : Int)
    (reg comp seas : Option String) :
    ∃ k, (scrapeBody md mid reg comp seas).1.map sinkTable =
      tableOrder.take k := by
  unfold scrapeBody
  repeat' split
  all_goals first
    | trivial
    | exact ⟨0, rfl⟩
    | exact ⟨1, rfl⟩
    | exact ⟨2, rfl⟩
    | exact ⟨3, rfl⟩
    | exact ⟨4, rfl⟩

/-- The upserts issued by one scrape are an initial run of the fixed
table order. -/
theorem scrape_calls_order (url : String) (page : PageContent) :
    ∃ k, (scrape_whoscored_data url page).1.map sinkTable =
      tableOrder.take k := by
  unfold scrape_whoscored_data
  split
  · exact ⟨0, rfl⟩
  · split
    · exact ⟨0, rfl⟩
    · exact ⟨0, rfl⟩
    · exact scrapeBody_calls_order _ _ _ _ _

/-- The orchestrator only ever appends to the sink. -/
theorem runBatch_sink_extends : ∀ (batch : List (String × PageContent))
    (sink : List SinkCall), ∃ t, (runBatch batch sink).1 = sink ++ t := by
  intro batch
  induction batch with
  | nil => intro sink; exact ⟨[], by simp [runBatch]⟩
  | cons up rest ih =>
      intro sink
      rcases up with ⟨url, page⟩
      simp only [runBatch]
      rcases hout : (scrape_whoscored_data url page).2 with _ | _ | e | e
      · obtain ⟨t, ht⟩ := ih (sink ++ (scrape_whoscored_data url page).1)
        exact ⟨(scrape_whoscored_data url page).1 ++ t,
          by simp only [hout]; rw [ht]; simp⟩
      · obtain ⟨t, ht⟩ := ih (sink ++ (scrape_whoscored_data url page).1)
        exact ⟨(scrape_whoscored_data url page).1 ++ t,
          by simp only [hout]; rw [ht]; simp⟩
      · obtain ⟨t, ht⟩ := ih (sink ++ (scrape_whoscored_data url page).1)
        exact ⟨(scrape_whoscored_data url page).1 ++ t,
          by simp only [hout]; rw [ht]; simp⟩
      · exact ⟨(scrape_whoscored_data url page).1,
          by simp only [hout]⟩

/-- C9: the per-match pipeline is not atomic: the upserts of one match
are issued in the fixed order events, players, matches, lineups (any
failure truncates the run), and whatever was upserted before a failure
stays in the sink once the batch moves on or aborts: the final sink
state always retains the calls the match issued. -/
theorem c9_upserts_ordered_not_rolled_back (url : String)
    (page : PageContent) (rest : List (String × PageContent))
    (sink : List SinkCall) :
    (∃ k, (scrape_whoscored_data url page).1.map sinkTable =
      tableOrder.take k) ∧
    ∃ t, (runBatch ((url, page) :: rest) sink).1 =
      (sink ++ (scrape_whoscored_data url page).1) ++ t := by
  refine ⟨scrape_calls_order url page, ?_⟩
  simp only [runBatch]
  rcases hout : (scrape_whoscored_data url page).2 with _ | _ | e | e
  · obtain ⟨t, ht⟩ := runBatch_sink_extends rest
      (sink ++ (scrape_whoscored_data url page).1)
    exact ⟨t, by simp only [hout]; exact ht⟩
  · obtain ⟨t, ht⟩ := runBatch_sink_extends rest
      (sink ++ (scrape_whoscored_data url page).1)
    exact ⟨t, by simp only [hout]; exact ht⟩
  · obtain ⟨t, ht⟩ := runBatch_sink_extends rest
      (sink ++ (scrape_whoscored_data url page).1)
    exact ⟨t, by simp only [hout]; exact ht⟩
  · exact ⟨[], by simp only [hout]; simp⟩

end WhoScored
